import Mathlib

/-!
Shallow embedding of the DVD library record store and reconciliation engine
(custom_components/dvd_library/__init__.py) and proofs about its operations.

Items are Python dicts whose values are read with `.get`, so a missing key and
a key present with value `None` are indistinguishable to the code; every string
field is therefore modelled as `Option String` and the box as `Option Int`.
Payload dicts whose *key presence* matters (the `updates` argument of
`update_item`) are modelled with one `Option` layer per key on top of the
stored value.
-/

namespace DvdLib

/-- A raw Python value arriving in a `box` payload slot: `None`, an `int`,
a `str`, or anything else (which `_parse_box` rejects). -/
inductive BoxVal where
  | null
  | int (n : Int)
  | str (s : String)
  | other
deriving DecidableEq

instance {ε α : Type} [DecidableEq ε] [DecidableEq α] : DecidableEq (Except ε α) := fun x y =>
  match x, y with
  | Except.ok a, Except.ok b =>
      if h : a = b then Decidable.isTrue (congrArg Except.ok h)
      else Decidable.isFalse (fun he => h (Except.ok.inj he))
  | Except.error a, Except.error b =>
      if h : a = b then Decidable.isTrue (congrArg Except.error h)
      else Decidable.isFalse (fun he => h (Except.error.inj he))
  | Except.ok _, Except.error _ => Decidable.isFalse (fun he => Except.noConfusion he)
  | Except.error _, Except.ok _ => Decidable.isFalse (fun he => Except.noConfusion he)

/-- Python `str.strip()`: drop leading and trailing whitespace.  (Stated on
the character list so that it reduces structurally.) -/
def pyStrip (s : String) : String :=
  String.mk (((s.data.dropWhile Char.isWhitespace).reverse.dropWhile Char.isWhitespace).reverse)

/-- Python `int(s)` on an all-digit string. -/
def digitsToNat (s : String) : Nat :=
  s.data.foldl (fun acc c => acc * 10 + (c.toNat - 48)) 0

/-- Python `str.isdigit`: non-empty and every character a digit. -/
def isDigits (s : String) : Bool :=
  !s.data.isEmpty && s.data.all Char.isDigit

/-- `DvdLibrary._parse_box`: `None -> None`; a string is stripped, the empty
result maps to `None`, all-digit text to its integer value and anything else
raises `ValueError`; an `int` is returned as-is; any other type raises. -/
def parse_box : BoxVal → Except String (Option Int)
  | BoxVal.null => Except.ok Option.none
  | BoxVal.str s =>
      let t := pyStrip s
      if t = "" then Except.ok Option.none
      else if isDigits t then Except.ok (some (digitsToNat t : Int))
      else Except.error "Box must be an integer"
  | BoxVal.int n => Except.ok (some n)
  | BoxVal.other => Except.error "Box must be an integer"

/-- One stored catalog item: the six fields built by `add_item` plus the
metadata fields that `fetch_omdb` may merge in. -/
structure Item where
  title : Option String := Option.none
  year : Option String := Option.none
  barcode : Option String := Option.none
  imdb_id : Option String := Option.none
  added_by : Option String := Option.none
  box : Option Int := Option.none
  runtime : Option String := Option.none
  genres : Option String := Option.none
  director : Option String := Option.none
  actors : Option String := Option.none
  plot : Option String := Option.none
  poster : Option String := Option.none
  imdb_rating : Option String := Option.none
  rated : Option String := Option.none
  released : Option String := Option.none
  language : Option String := Option.none
  country : Option String := Option.none
  awards : Option String := Option.none
deriving DecidableEq, Inhabited

/-- The dict returned by a successful `fetch_omdb` call: all fifteen keys are
always present (their values may be `None`). -/
structure Meta where
  title : Option String := Option.none
  year : Option String := Option.none
  imdb_id : Option String := Option.none
  runtime : Option String := Option.none
  genres : Option String := Option.none
  director : Option String := Option.none
  actors : Option String := Option.none
  plot : Option String := Option.none
  poster : Option String := Option.none
  imdb_rating : Option String := Option.none
  rated : Option String := Option.none
  released : Option String := Option.none
  language : Option String := Option.none
  country : Option String := Option.none
  awards : Option String := Option.none
deriving DecidableEq, Inhabited

/-- `item.update(meta)`: every key of the meta dict overwrites the item's
value, including keys whose value is `None`. -/
def applyMeta (it : Item) (m : Meta) : Item :=
  { it with
    title := m.title, year := m.year, imdb_id := m.imdb_id,
    runtime := m.runtime, genres := m.genres, director := m.director,
    actors := m.actors, plot := m.plot, poster := m.poster,
    imdb_rating := m.imdb_rating, rated := m.rated, released := m.released,
    language := m.language, country := m.country, awards := m.awards }

/-- Python truthiness of an optional string: `None` and `""` are falsy. -/
def truthy : Option String → Bool
  | Option.none => false
  | some s => s != ""

/-- `DvdLibrary._find_index`: first index whose field is truthy and equals
the given value. -/
def find_index (get : Item → Option String) (v : String) : List Item → Option Nat
  | [] => Option.none
  | it :: rest =>
      if truthy (get it) && (get it == some v) then some 0
      else (find_index get v rest).map (fun i => i + 1)

/-- `DvdLibrary._is_empty_item`'s per-field test: `None` or blank text. -/
def emptyV : Option String → Bool
  | Option.none => true
  | some s => pyStrip s == ""

/-- `DvdLibrary._is_empty_item`: title, year, barcode and imdb_id all empty. -/
def is_empty_item (it : Item) : Bool :=
  emptyV it.title && emptyV it.year && emptyV it.barcode && emptyV it.imdb_id

/-- `DvdLibrary.purge_nulls`: keep the non-empty items, persist, and return
the number removed. -/
def purge_nulls (items : List Item) : List Item × Nat :=
  let kept := items.filter (fun it => !is_empty_item it)
  (kept, items.length - kept.length)

/-- `DvdLibrary.remove_index`: range-check, then delete in place.  The `Bool`
records whether `_async_save_and_signal` ran. -/
def remove_index (i : Int) (items : List Item) : Except String (List Item × Bool) :=
  if i < 0 ∨ (items.length : Int) ≤ i then Except.error "Index out of range"
  else Except.ok (items.eraseIdx i.toNat, true)

/-- The raw payload of an `add_item` service call (year already rendered as
text; a numeric year is represented by its decimal string). -/
structure AddInput where
  title : Option String := Option.none
  year : Option String := Option.none
  barcode : Option String := Option.none
  imdb_id : Option String := Option.none
  added_by : Option String := Option.none
  box : BoxVal := BoxVal.null

/-- `str(data.get("year")) if data.get("year") else None`: a falsy year
becomes `None`. -/
def normYear : Option String → Option String
  | Option.none => Option.none
  | some s => if s = "" then Option.none else some s

/-- The candidate dict built at the top of `add_item`, before enrichment. -/
def mkCandidate (d : AddInput) (box : Option Int) : Item :=
  { title := d.title, year := normYear d.year, barcode := d.barcode,
    imdb_id := d.imdb_id, added_by := d.added_by, box := box }

/-- The candidate after the optional OMDb enrichment (`item.update(meta)`
when the lookup returned a dict). -/
def candidate (d : AddInput) (box : Option Int) (meta : Option Meta) : Item :=
  match meta with
  | some m => applyMeta (mkCandidate d box) m
  | Option.none => mkCandidate d box

/-- The validity gate of `add_item`: at least one of a truthy imdb_id, a
truthy barcode, or a title that is non-blank after stripping. -/
def usable (it : Item) : Bool :=
  truthy it.imdb_id || truthy it.barcode || (pyStrip (it.title.getD "") != "")

/-- The title/year fallback scan of `add_item`: first item with the same
title whose year matches unless the candidate's year is falsy. -/
def title_year_index (cand : Item) : List Item → Option Nat
  | [] => Option.none
  | it :: rest =>
      if (it.title == cand.title) && (!truthy cand.year || (it.year == cand.year)) then some 0
      else (title_year_index cand rest).map (fun i => i + 1)

/-- The match-resolution cascade of `add_item`: imdb_id, then barcode, then
the title/year scan, each attempted only when the candidate field is truthy. -/
def addMatchIdx (cand : Item) (items : List Item) : Option Nat :=
  match (if truthy cand.imdb_id then find_index (fun it => it.imdb_id) (cand.imdb_id.getD "") items else Option.none) with
  | some i => some i
  | Option.none =>
    match (if truthy cand.barcode then find_index (fun it => it.barcode) (cand.barcode.getD "") items else Option.none) with
    | some i => some i
    | Option.none =>
        if truthy cand.title then title_year_index cand items else Option.none

/-- The in-place merge of `add_item` when a match was found: box is copied
only when the candidate's box is non-null, then every key of the candidate
dict except `box` overwrites the stored item.  When enrichment ran, the
candidate dict also carries the fifteen metadata keys. -/
def mergeAdd (old cand : Item) (withMeta : Bool) : Item :=
  let b := match cand.box with
    | some v => some v
    | Option.none => old.box
  if withMeta then { cand with box := b }
  else { old with
    title := cand.title, year := cand.year, barcode := cand.barcode,
    imdb_id := cand.imdb_id, added_by := cand.added_by, box := b }

/-- `DvdLibrary.add_item`.  `meta` is the result of the best-effort OMDb
lookup (`none` covers: no API key, lookup failure, or a not-found response).
The `Bool` records whether `_async_save_and_signal` ran. -/
def add_item (d : AddInput) (meta : Option Meta) (items : List Item) :
    Except String (List Item × Bool) :=
  match parse_box d.box with
  | Except.error e => Except.error e
  | Except.ok bv =>
    let cand := candidate d bv meta
    if usable cand then
      match addMatchIdx cand items with
      | some idx =>
          Except.ok (items.set idx (mergeAdd (items.getD idx default) cand meta.isSome), true)
      | Option.none => Except.ok (items ++ [cand], true)
    else Except.ok (items, false)

/-- A selector payload for update/remove/refresh. -/
structure Selector where
  imdb_id : Option String := Option.none
  barcode : Option String := Option.none
  title : Option String := Option.none
deriving DecidableEq, Inhabited

/-- `update_item`'s resolution loop: each populated selector field is tried
in order imdb_id, barcode, title, and the loop stops at the first field whose
scan finds an item — an earlier populated field that matches nothing falls
through to the next one. -/
def resolveUpdate (sel : Selector) (items : List Item) : Option Nat :=
  match (if truthy sel.imdb_id then find_index (fun it => it.imdb_id) (sel.imdb_id.getD "") items else Option.none) with
  | some i => some i
  | Option.none =>
    match (if truthy sel.barcode then find_index (fun it => it.barcode) (sel.barcode.getD "") items else Option.none) with
    | some i => some i
    | Option.none =>
        if truthy sel.title then find_index (fun it => it.title) (sel.title.getD "") items else Option.none

/-- `remove_item`'s resolution: only the *first* populated selector field is
used; if its scan finds nothing the call fails even when a later populated
field would have matched. -/
def remove_resolve (sel : Selector) (items : List Item) : Except String Nat :=
  if truthy sel.imdb_id then
    match find_index (fun it => it.imdb_id) (sel.imdb_id.getD "") items with
    | some i => Except.ok i
    | Option.none => Except.error "Item not found"
  else if truthy sel.barcode then
    match find_index (fun it => it.barcode) (sel.barcode.getD "") items with
    | some i => Except.ok i
    | Option.none => Except.error "Item not found"
  else if truthy sel.title then
    match find_index (fun it => it.title) (sel.title.getD "") items with
    | some i => Except.ok i
    | Option.none => Except.error "Item not found"
  else Except.error "Provide imdb_id, barcode or title"

/-- `DvdLibrary.remove_item`. -/
def remove_item (sel : Selector) (items : List Item) : Except String (List Item × Bool) :=
  match remove_resolve sel items with
  | Except.error e => Except.error e
  | Except.ok i => Except.ok (items.eraseIdx i, true)

/-- The `updates` payload of `update_item`: the outer `Option` on each string
field records whether the key is present in the dict at all (a present key
overwrites even with value `None`); a present `box` key holds a raw value
still to be parsed. -/
structure Updates where
  title : Option (Option String) := Option.none
  year : Option (Option String) := Option.none
  barcode : Option (Option String) := Option.none
  imdb_id : Option (Option String) := Option.none
  added_by : Option (Option String) := Option.none
  box : Option BoxVal := Option.none
deriving Inhabited

/-- `self.items[idx].update(updates)`: keys present in the payload overwrite;
`boxVal` is the parsed box, applied only when the `box` key was present. -/
def applyUpdates (it : Item) (u : Updates) (boxVal : Option Int) : Item :=
  { it with
    title := u.title.getD it.title,
    year := u.year.getD it.year,
    barcode := u.barcode.getD it.barcode,
    imdb_id := u.imdb_id.getD it.imdb_id,
    added_by := u.added_by.getD it.added_by,
    box := if u.box.isSome then boxVal else it.box }

/-- Tail of `update_item` after box parsing: merge the updates, then merge
the re-fetched metadata when one of title/year/imdb_id was in the payload and
the lookup returned a dict. -/
def finishUpdate (items : List Item) (idx : Nat) (u : Updates) (b : Option Int)
    (meta : Option Meta) : List Item :=
  let it1 := applyUpdates (items.getD idx default) u b
  let keysTouched := u.title.isSome || u.year.isSome || u.imdb_id.isSome
  let it2 := match meta with
    | some m => if keysTouched then applyMeta it1 m else it1
    | Option.none => it1
  items.set idx it2

/-- `DvdLibrary.update_item`.  `meta` is the result of the conditional
re-enrichment (`none` covers: no API key, lookup returned nothing). -/
def update_item (sel : Selector) (u : Updates) (meta : Option Meta)
    (items : List Item) : Except String (List Item × Bool) :=
  match resolveUpdate sel items with
  | Option.none => Except.error "Item not found for selector"
  | some idx =>
    match u.box with
    | some raw =>
      match parse_box raw with
      | Except.error e => Except.error e
      | Except.ok b => Except.ok (finishUpdate items idx u b meta, true)
    | Option.none => Except.ok (finishUpdate items idx u Option.none meta, true)

/-- Target selection of `refresh_metadata`: a resolving selector narrows the
refresh to one index, otherwise every index is refreshed. -/
def refresh_targets (sel : Option Selector) (items : List Item) : List Nat :=
  let t : List Nat :=
    match sel with
    | some s =>
        if truthy s.imdb_id then
          match find_index (fun it => it.imdb_id) (s.imdb_id.getD "") items with
          | some i => [i]
          | Option.none => []
        else if truthy s.barcode then
          match find_index (fun it => it.barcode) (s.barcode.getD "") items with
          | some i => [i]
          | Option.none => []
        else if truthy s.title then
          match find_index (fun it => it.title) (s.title.getD "") items with
          | some i => [i]
          | Option.none => []
        else []
    | Option.none => []
  if t.isEmpty then List.range items.length else t

/-- `DvdLibrary.refresh_metadata`.  `metas i` is the OMDb result for the item
at index `i`; with no API key the call returns before fetching or saving. -/
def refresh_metadata (sel : Option Selector) (apiKey : Bool)
    (metas : Nat → Option Meta) (items : List Item) : List Item × Bool :=
  let targets := refresh_targets sel items
  if !apiKey then (items, false)
  else
    (targets.foldl (fun acc i =>
        match metas i with
        | some m => acc.set i (applyMeta (acc.getD i default) m)
        | Option.none => acc) items, true)

/-- `DvdLibrary.move_box`: parse both endpoints, reject a null endpoint, then
relabel every item whose box equals the source and count them. -/
def move_box (fromV toV : BoxVal) (items : List Item) :
    Except String (List Item × Nat) :=
  match parse_box fromV, parse_box toV with
  | Except.ok (some f), Except.ok (some t) =>
      Except.ok
        (items.map (fun it => if it.box == some f then { it with box := some t } else it),
         items.countP (fun it => it.box == some f))
  | Except.ok _, Except.ok _ => Except.error "Both from_box and to_box must be integers"
  | Except.error e, _ => Except.error e
  | _, Except.error e => Except.error e

/-- One external command against the library, carrying the result of any
OMDb lookup the operation would perform as explicit data. -/
inductive Step where
  | add (d : AddInput) (meta : Option Meta)
  | update (sel : Selector) (u : Updates) (meta : Option Meta)
  | remove (sel : Selector)
  | removeAt (i : Int)
  | refresh (sel : Option Selector) (apiKey : Bool) (metas : Nat → Option Meta)
  | purge
  | move (fromV toV : BoxVal)

/-- Run one command; a raised error leaves the collection as it was. -/
def applyStep : Step → List Item → List Item
  | Step.add d m, items =>
      match add_item d m items with
      | Except.ok (l, _) => l
      | Except.error _ => items
  | Step.update sel u m, items =>
      match update_item sel u m items with
      | Except.ok (l, _) => l
      | Except.error _ => items
  | Step.remove sel, items =>
      match remove_item sel items with
      | Except.ok (l, _) => l
      | Except.error _ => items
  | Step.removeAt i, items =>
      match remove_index i items with
      | Except.ok (l, _) => l
      | Except.error _ => items
  | Step.refresh sel k ms, items => (refresh_metadata sel k ms items).1
  | Step.purge, items => (purge_nulls items).1
  | Step.move f t, items =>
      match move_box f t items with
      | Except.ok (l, _) => l
      | Except.error _ => items

/-- Run a sequence of commands from an initial collection. -/
def runSteps (steps : List Step) (init : List Item) : List Item :=
  steps.foldl (fun acc st => applyStep st acc) init

/-- Two items carry the same non-blank imdb_id. -/
def imdbClash (a b : Item) : Prop :=
  truthy a.imdb_id = true ∧ truthy b.imdb_id = true ∧ a.imdb_id = b.imdb_id

instance (a b : Item) : Decidable (imdbClash a b) :=
  inferInstanceAs (Decidable (_ ∧ _ ∧ _))

/-- The uniqueness invariant: no two distinct positions hold items with the
same non-blank imdb_id. -/
def UniqueImdb (items : List Item) : Prop :=
  items.Pairwise (fun a b => ¬ imdbClash a b)

instance (items : List Item) : Decidable (UniqueImdb items) :=
  inferInstanceAs (Decidable (items.Pairwise _))

/-- The commands that preserve imdb_id uniqueness: everything except
`update_item`, and `refresh_metadata` only when no API key is configured. -/
def SafeStep : Step → Prop
  | Step.update _ _ _ => False
  | Step.refresh _ apiKey _ => apiKey = false
  | _ => True

/-- A field value that is absent or blank after stripping, stated the way the
spec words it (independently of `is_empty_item`). -/
def blankOpt (v : Option String) : Prop :=
  v = Option.none ∨ ∃ s, v = some s ∧ pyStrip s = ""

/-- Full description of the matched-add merge: the result replaces the item
at `idx` in place; its box comes from the candidate exactly when the
candidate's parsed box is non-null and is kept from the stored item
otherwise; every key of the candidate dict other than `box` overwrites, and
the metadata keys are part of the candidate dict exactly when enrichment
returned a record. -/
def AddMergeSpec (d : AddInput) (meta : Option Meta) (items : List Item)
    (bv : Option Int) (idx : Nat) : Prop :=
  ∃ merged,
    add_item d meta items = Except.ok (items.set idx merged, true) ∧
    ((candidate d bv meta).box.isSome = true → merged.box = (candidate d bv meta).box) ∧
    ((candidate d bv meta).box = Option.none → merged.box = (items.getD idx default).box) ∧
    merged.title = (candidate d bv meta).title ∧
    merged.year = (candidate d bv meta).year ∧
    merged.barcode = (candidate d bv meta).barcode ∧
    merged.imdb_id = (candidate d bv meta).imdb_id ∧
    merged.added_by = (candidate d bv meta).added_by ∧
    (meta.isSome = true →
      merged.runtime = (candidate d bv meta).runtime ∧
      merged.genres = (candidate d bv meta).genres ∧
      merged.director = (candidate d bv meta).director ∧
      merged.actors = (candidate d bv meta).actors ∧
      merged.plot = (candidate d bv meta).plot ∧
      merged.poster = (candidate d bv meta).poster ∧
      merged.imdb_rating = (candidate d bv meta).imdb_rating ∧
      merged.rated = (candidate d bv meta).rated ∧
      merged.released = (candidate d bv meta).released ∧
      merged.language = (candidate d bv meta).language ∧
      merged.country = (candidate d bv meta).country ∧
      merged.awards = (candidate d bv meta).awards) ∧
    (meta = Option.none →
      merged.runtime = (items.getD idx default).runtime ∧
      merged.genres = (items.getD idx default).genres ∧
      merged.director = (items.getD idx default).director ∧
      merged.actors = (items.getD idx default).actors ∧
      merged.plot = (items.getD idx default).plot ∧
      merged.poster = (items.getD idx default).poster ∧
      merged.imdb_rating = (items.getD idx default).imdb_rating ∧
      merged.rated = (items.getD idx default).rated ∧
      merged.released = (items.getD idx default).released ∧
      merged.language = (items.getD idx default).language ∧
      merged.country = (items.getD idx default).country ∧
      merged.awards = (items.getD idx default).awards)

lemma imdbClash_symm {a b : Item} (h : imdbClash a b) : imdbClash b a :=
  ⟨h.2.1, h.1, h.2.2.symm⟩

lemma mergeAdd_imdb (old cand : Item) (wm : Bool) :
    (mergeAdd old cand wm).imdb_id = cand.imdb_id := by
  cases wm <;> rfl

lemma find_index_some_lt {get : Item → Option String} {v : String} :
    ∀ {l : List Item} {i : Nat}, find_index get v l = some i → i < l.length := by
  intro l
  induction l with
  | nil => intro i h; simp [find_index] at h
  | cons hd tl ih =>
      intro i h
      rw [find_index] at h
      split at h
      · cases h; simp
      · cases hf : find_index get v tl with
        | none => rw [hf] at h; simp at h
        | some j =>
            rw [hf] at h
            simp only [Option.map_some'] at h
            cases h
            simpa using Nat.succ_lt_succ (ih hf)

lemma find_index_some_getD {get : Item → Option String} {v : String} :
    ∀ {l : List Item} {i : Nat}, find_index get v l = some i →
      truthy (get (l.getD i default)) = true ∧ get (l.getD i default) = some v := by
  intro l
  induction l with
  | nil => intro i h; simp [find_index] at h
  | cons hd tl ih =>
      intro i h
      rw [find_index] at h
      split at h
      case isTrue hcond =>
        cases h
        simp only [List.getD_cons_zero]
        simpa [Bool.and_eq_true, beq_iff_eq] using hcond
      case isFalse =>
        cases hf : find_index get v tl with
        | none => rw [hf] at h; simp at h
        | some j =>
            rw [hf] at h
            simp only [Option.map_some'] at h
            cases h
            simpa [List.getD_cons_succ] using ih hf

lemma find_index_none_prop {get : Item → Option String} {v : String} :
    ∀ {l : List Item}, find_index get v l = Option.none →
      ∀ it ∈ l, ¬(truthy (get it) = true ∧ get it = some v) := by
  intro l
  induction l with
  | nil => intro _ it hit; simp at hit
  | cons hd tl ih =>
      intro h it hit
      rw [find_index] at h
      split at h
      · simp at h
      case isFalse hcond =>
        rcases List.mem_cons.mp hit with rfl | hmem
        · intro hc
          exact hcond (by rw [Bool.and_eq_true, beq_iff_eq]; exact hc)
        · cases hf : find_index get v tl with
          | none => exact ih hf it hmem
          | some j => rw [hf] at h; simp at h

lemma find_index_isSome_of_mem {get : Item → Option String} {v : String}
    {l : List Item} {it : Item} (hm : it ∈ l) (ht : truthy (get it) = true)
    (he : get it = some v) : ∃ i, find_index get v l = some i := by
  induction l with
  | nil => simp at hm
  | cons hd tl ih =>
      rw [find_index]
      split
      · exact ⟨0, rfl⟩
      case isFalse hcond =>
        rcases List.mem_cons.mp hm with rfl | hmem
        · exact absurd (by rw [Bool.and_eq_true, beq_iff_eq]; exact ⟨ht, he⟩) hcond
        · obtain ⟨j, hj⟩ := ih hmem
          exact ⟨j + 1, by rw [hj]; rfl⟩

lemma title_year_index_some_lt {cand : Item} :
    ∀ {l : List Item} {i : Nat}, title_year_index cand l = some i → i < l.length := by
  intro l
  induction l with
  | nil => intro i h; simp [title_year_index] at h
  | cons hd tl ih =>
      intro i h
      rw [title_year_index] at h
      split at h
      · cases h; simp
      · cases hf : title_year_index cand tl with
        | none => rw [hf] at h; simp at h
        | some j =>
            rw [hf] at h
            simp only [Option.map_some'] at h
            cases h
            simpa using Nat.succ_lt_succ (ih hf)

lemma addMatchIdx_some_lt {cand : Item} {items : List Item} {idx : Nat}
    (h : addMatchIdx cand items = some idx) : idx < items.length := by
  rw [addMatchIdx] at h
  split at h
  case h_1 i heq =>
    cases h
    split at heq
    · exact find_index_some_lt heq
    · simp at heq
  case h_2 heq =>
    split at h
    case h_1 i heq2 =>
      cases h
      split at heq2
      · exact find_index_some_lt heq2
      · simp at heq2
    case h_2 =>
      split at h
      · exact title_year_index_some_lt h
      · simp at h

lemma mem_set_self {α : Type} : ∀ (l : List α) (i : Nat) (a : α),
    i < l.length → a ∈ l.set i a := by
  intro l
  induction l with
  | nil => intro i a h; simp at h
  | cons hd tl ih =>
      intro i a h
      cases i with
      | zero => simp
      | succ n =>
          rw [List.set_cons_succ]
          exact List.mem_cons_of_mem _ (ih n a (by simpa using Nat.lt_of_succ_lt_succ h))

lemma getD_map_lt {α β : Type} [Inhabited α] [Inhabited β] (f : α → β) :
    ∀ (l : List α) (i : Nat), i < l.length →
      (l.map f).getD i default = f (l.getD i default) := by
  intro l
  induction l with
  | nil => intro i h; simp at h
  | cons hd tl ih =>
      intro i h
      cases i with
      | zero => rfl
      | succ n => simpa using ih n (by simpa using Nat.lt_of_succ_lt_succ h)

lemma pairwise_set_of {R : Item → Item → Prop} :
    ∀ (l : List Item) (i : Nat) (a : Item), l.Pairwise R →
      (∀ j, j < l.length → j ≠ i →
        R (l.getD j default) a ∧ R a (l.getD j default)) →
      (l.set i a).Pairwise R := by
  intro l
  induction l with
  | nil => intro i a _ _; simp
  | cons hd tl ih =>
      intro i a hp ha
      obtain ⟨hhd, htl⟩ := List.pairwise_cons.mp hp
      cases i with
      | zero =>
          rw [List.set_cons_zero, List.pairwise_cons]
          refine ⟨?_, htl⟩
          intro b hb
          obtain ⟨j, hj, hgj⟩ := List.mem_iff_getElem.mp hb
          have h0 := ha (j + 1) (by simpa using Nat.succ_lt_succ hj) (by simp)
          rw [List.getD_cons_succ, List.getD_eq_getElem tl default hj, hgj] at h0
          exact h0.2
      | succ n =>
          rw [List.set_cons_succ, List.pairwise_cons]
          constructor
          · intro b hb
            rcases List.mem_or_eq_of_mem_set hb with hb' | rfl
            · exact hhd b hb'
            · have h0 := ha 0 (by simp) (by simp)
              simpa using h0.1
          · refine ih n a htl ?_
            intro j hj hne
            have h0 := ha (j + 1) (by simpa using Nat.succ_lt_succ hj) (by simpa using hne)
            simpa [List.getD_cons_succ] using h0

lemma addMatchIdx_imdb_cases {cand : Item} {items : List Item} {idx : Nat}
    (h : addMatchIdx cand items = some idx) (ht : truthy cand.imdb_id = true) :
    find_index (fun it => it.imdb_id) (cand.imdb_id.getD "") items = some idx ∨
    find_index (fun it => it.imdb_id) (cand.imdb_id.getD "") items = Option.none := by
  rw [addMatchIdx, if_pos ht] at h
  cases hf : find_index (fun it => it.imdb_id) (cand.imdb_id.getD "") items with
  | some j => rw [hf] at h; cases h; exact Or.inl rfl
  | none => exact Or.inr rfl

lemma imdb_eq_some_strip {cand : Item} (ht : truthy cand.imdb_id = true) :
    cand.imdb_id = some (cand.imdb_id.getD "") := by
  cases hv : cand.imdb_id with
  | none => rw [hv] at ht; simp [truthy] at ht
  | some s => rfl

lemma add_preserves_unique (d : AddInput) (meta : Option Meta) {items : List Item}
    (h : UniqueImdb items) : UniqueImdb (applyStep (Step.add d meta) items) := by
  rw [applyStep]
  cases hp : parse_box d.box with
  | error e => simp [add_item, hp]; exact h
  | ok bv =>
    by_cases hu : usable (candidate d bv meta)
    case neg => simp [add_item, hp, hu]; exact h
    case pos =>
      cases hm : addMatchIdx (candidate d bv meta) items with
      | none =>
          simp only [add_item, hp, if_pos hu, hm]
          rw [UniqueImdb, List.pairwise_append]
          refine ⟨h, by simp, ?_⟩
          intro a ha b hb
          rw [List.mem_singleton] at hb
          subst hb
          intro hc
          have ht : truthy (candidate d bv meta).imdb_id = true := hc.2.1
          rw [addMatchIdx, if_pos ht] at hm
          cases hf : find_index (fun it => it.imdb_id)
              ((candidate d bv meta).imdb_id.getD "") items with
          | some j => rw [hf] at hm; simp at hm
          | none =>
              exact find_index_none_prop hf a ha
                ⟨hc.1, hc.2.2.trans (imdb_eq_some_strip ht)⟩
      | some idx =>
          simp only [add_item, hp, if_pos hu, hm]
          apply pairwise_set_of items idx _ h
          intro j hj hne
          have hmi := mergeAdd_imdb (items.getD idx default) (candidate d bv meta) meta.isSome
          have key : ¬ imdbClash (items.getD j default)
              (mergeAdd (items.getD idx default) (candidate d bv meta) meta.isSome) := by
            intro hc
            have htm : truthy (candidate d bv meta).imdb_id = true := by
              rw [← hmi]; exact hc.2.1
            have heqj : (items.getD j default).imdb_id =
                some ((candidate d bv meta).imdb_id.getD "") := by
              rw [hc.2.2, hmi]; exact imdb_eq_some_strip htm
            rcases addMatchIdx_imdb_cases hm htm with hf | hf
            · have hlt := find_index_some_lt hf
              obtain ⟨hti, hei⟩ := find_index_some_getD hf
              -- positions j and idx both carry the same non-blank imdb_id
              have hclash : imdbClash (items.getD j default) (items.getD idx default) :=
                ⟨hc.1, hti, heqj.trans hei.symm⟩
              have hpg := List.pairwise_iff_getElem.mp h
              rcases Nat.lt_or_ge j idx with hlt' | hge
              · have := hpg j idx hj hlt hlt'
                rw [← List.getD_eq_getElem items default hj,
                  ← List.getD_eq_getElem items default hlt] at this
                exact this hclash
              · have hlt'' : idx < j := Nat.lt_of_le_of_ne hge (fun he => hne he.symm)
                have := hpg idx j hlt hj hlt''
                rw [← List.getD_eq_getElem items default hj,
                  ← List.getD_eq_getElem items default hlt] at this
                exact this (imdbClash_symm hclash)
            · exact find_index_none_prop hf (items.getD j default)
                (by rw [List.getD_eq_getElem items default hj]
                    exact List.getElem_mem hj)
                ⟨hc.1, heqj⟩
          exact ⟨key, fun hc => key (imdbClash_symm hc)⟩

lemma remove_preserves_unique (sel : Selector) {items : List Item}
    (h : UniqueImdb items) : UniqueImdb (applyStep (Step.remove sel) items) := by
  rw [applyStep]
  cases hr : remove_item sel items with
  | error e => exact h
  | ok res =>
      rw [remove_item] at hr
      cases hq : remove_resolve sel items with
      | error e => rw [hq] at hr; simp at hr
      | ok i =>
          rw [hq] at hr
          cases hr
          exact List.Pairwise.sublist (List.eraseIdx_sublist items i) h

lemma removeAt_preserves_unique (i : Int) {items : List Item}
    (h : UniqueImdb items) : UniqueImdb (applyStep (Step.removeAt i) items) := by
  rw [applyStep]
  cases hr : remove_index i items with
  | error e => exact h
  | ok res =>
      rw [remove_index] at hr
      split at hr
      · simp at hr
      · cases hr
        exact List.Pairwise.sublist (List.eraseIdx_sublist items i.toNat) h

lemma purge_preserves_unique {items : List Item}
    (h : UniqueImdb items) : UniqueImdb (applyStep Step.purge items) :=
  List.Pairwise.sublist (List.filter_sublist items) h

lemma refresh_nokey_preserves_unique (sel : Option Selector) (metas : Nat → Option Meta)
    {items : List Item} (h : UniqueImdb items) :
    UniqueImdb (applyStep (Step.refresh sel false metas) items) := by
  rw [applyStep, refresh_metadata]
  exact h

lemma move_preserves_unique (f t : BoxVal) {items : List Item}
    (h : UniqueImdb items) : UniqueImdb (applyStep (Step.move f t) items) := by
  rw [applyStep]
  cases hr : move_box f t items with
  | error e => exact h
  | ok res =>
      rw [move_box] at hr
      cases hf : parse_box f with
      | error e => rw [hf] at hr; simp at hr
      | ok o1 =>
          cases hg : parse_box t with
          | error e => rw [hf, hg] at hr; cases o1 <;> simp at hr
          | ok o2 =>
              rw [hf, hg] at hr
              cases o1 with
              | none => simp at hr
              | some fv =>
                  cases o2 with
                  | none => simp at hr
                  | some tv =>
                      cases hr
                      rw [UniqueImdb, List.pairwise_map]
                      refine h.imp ?_
                      intro a b hab hc
                      apply hab
                      have ea : (if a.box == some fv then { a with box := some tv } else a).imdb_id
                          = a.imdb_id := by split <;> rfl
                      have eb : (if b.box == some fv then { b with box := some tv } else b).imdb_id
                          = b.imdb_id := by split <;> rfl
                      exact ⟨by rw [← ea]; exact hc.1, by rw [← eb]; exact hc.2.1,
                        by rw [← ea, ← eb]; exact hc.2.2⟩

lemma safeStep_preserves_unique (st : Step) (hs : SafeStep st) {items : List Item}
    (h : UniqueImdb items) : UniqueImdb (applyStep st items) := by
  cases st with
  | add d m => exact add_preserves_unique d m h
  | update sel u m => exact absurd hs (by simp [SafeStep])
  | remove sel => exact remove_preserves_unique sel h
  | removeAt i => exact removeAt_preserves_unique i h
  | refresh sel k ms =>
      have hk : k = false := hs
      subst hk
      exact refresh_nokey_preserves_unique sel ms h
  | purge => exact purge_preserves_unique h
  | move f t => exact move_preserves_unique f t h

lemma runSteps_preserves_unique : ∀ (steps : List Step) (init : List Item),
    (∀ st ∈ steps, SafeStep st) → UniqueImdb init → UniqueImdb (runSteps steps init) := by
  intro steps
  induction steps with
  | nil => intro init _ h; exact h
  | cons st rest ih =>
      intro init hs h
      have h1 := safeStep_preserves_unique st (hs st (List.mem_cons_self st rest)) h
      have h2 := ih (applyStep st init)
        (fun s hmem => hs s (List.mem_cons_of_mem st hmem)) h1
      simpa [runSteps, List.foldl_cons] using h2

lemma emptyV_iff_blankOpt (v : Option String) : emptyV v = true ↔ blankOpt v := by
  cases v with
  | none => simp [emptyV, blankOpt]
  | some s => simp [emptyV, blankOpt, beq_iff_eq]

lemma is_empty_iff_blank (it : Item) :
    is_empty_item it = true ↔
      (blankOpt it.title ∧ blankOpt it.year ∧ blankOpt it.barcode ∧ blankOpt it.imdb_id) := by
  simp [is_empty_item, Bool.and_eq_true, emptyV_iff_blankOpt, and_assoc]

/-- C9: the box parser maps null to null, returns integers as-is, strips
text (blank text to null, all-digit text to its integer value, any other
text to a validation error) and rejects any other type with the same
validation error. -/
theorem parse_box_spec :
    parse_box BoxVal.null = Except.ok Option.none ∧
    (∀ n : Int, parse_box (BoxVal.int n) = Except.ok (some n)) ∧
    (∀ s : String, pyStrip s = "" → parse_box (BoxVal.str s) = Except.ok Option.none) ∧
    (∀ s : String, pyStrip s ≠ "" → isDigits (pyStrip s) = true →
      parse_box (BoxVal.str s) = Except.ok (some (digitsToNat (pyStrip s) : Int))) ∧
    (∀ s : String, pyStrip s ≠ "" → isDigits (pyStrip s) = false →
      parse_box (BoxVal.str s) = Except.error "Box must be an integer") ∧
    parse_box (BoxVal.str "12") = Except.ok (some 12) ∧
    parse_box (BoxVal.str "") = Except.ok Option.none ∧
    parse_box (BoxVal.str "abc") = Except.error "Box must be an integer" ∧
    parse_box BoxVal.other = Except.error "Box must be an integer" := by
  refine ⟨rfl, fun n => rfl, ?_, ?_, ?_, by decide, by decide, by decide, rfl⟩
  · intro s h; simp [parse_box, h]
  · intro s h hd; simp [parse_box, h, hd]
  · intro s h hd; simp [parse_box, h, hd]

/-- Witness for C9: the conditional clauses of `parse_box_spec` applied to
concrete strings. -/
theorem parse_box_spec_witness :
    parse_box (BoxVal.str "  ") = Except.ok Option.none ∧
    parse_box (BoxVal.str " 42 ") = Except.ok (some (digitsToNat (pyStrip " 42 ") : Int)) ∧
    parse_box (BoxVal.str "4 2") = Except.error "Box must be an integer" :=
  ⟨parse_box_spec.2.2.1 "  " (by decide),
   parse_box_spec.2.2.2.1 " 42 " (by decide) (by decide),
   parse_box_spec.2.2.2.2.1 "4 2" (by decide) (by decide)⟩

/-- C10: every integer box payload is accepted unchanged — including
negative integers, which can therefore reach an item's box through
operations such as `move_box` or a box update — while the equivalent string
form "-3" is rejected, because only pure-digit text passes. -/
theorem parse_box_sign_asymmetry :
    (∀ n : Int, parse_box (BoxVal.int n) = Except.ok (some n)) ∧
    parse_box (BoxVal.int (-3)) = Except.ok (some (-3)) ∧
    parse_box (BoxVal.str "-3") = Except.error "Box must be an integer" ∧
    move_box (BoxVal.int 5) (BoxVal.int (-3)) [{ box := some 5 }] =
      Except.ok ([{ box := some (-3) }], 1) ∧
    update_item { title := some "d" } { box := some (BoxVal.int (-3)) } Option.none
        [{ title := some "d" }] =
      Except.ok ([{ title := some "d", box := some (-3) }], true) :=
  ⟨fun n => rfl, by decide, by decide, by decide, by decide⟩

/-- C8: `purge_nulls` is idempotent — a second immediate call removes 0
items and leaves the list unchanged — and an item survives the purge exactly
when not all of title, year, barcode and imdb_id are null-or-blank,
independently of its box or metadata fields. -/
theorem purge_idempotent_empty (items : List Item) :
    (purge_nulls (purge_nulls items).1).2 = 0 ∧
    (purge_nulls (purge_nulls items).1).1 = (purge_nulls items).1 ∧
    ∀ it : Item, it ∈ (purge_nulls items).1 ↔
      it ∈ items ∧
      ¬(blankOpt it.title ∧ blankOpt it.year ∧ blankOpt it.barcode ∧ blankOpt it.imdb_id) := by
  refine ⟨?_, ?_, ?_⟩
  · simp only [purge_nulls, List.filter_filter, Bool.and_self, Nat.sub_self]
  · simp only [purge_nulls, List.filter_filter, Bool.and_self]
  · intro it
    simp only [purge_nulls]
    rw [List.mem_filter]
    constructor
    · rintro ⟨h1, h2⟩
      refine ⟨h1, ?_⟩
      intro hb
      rw [← is_empty_iff_blank] at hb
      simp [hb] at h2
    · rintro ⟨h1, h2⟩
      refine ⟨h1, ?_⟩
      cases hbe : is_empty_item it with
      | true => exact absurd (is_empty_iff_blank it |>.mp hbe) h2
      | false => simp

/-- C7: moving box A to box B and then box B back to box A restores box A on
every item that initially had it. -/
theorem move_box_roundtrip (A B : Int) (items : List Item) (hAB : A ≠ B) :
    ∃ l1 n1 l2 n2,
      move_box (BoxVal.int A) (BoxVal.int B) items = Except.ok (l1, n1) ∧
      move_box (BoxVal.int B) (BoxVal.int A) l1 = Except.ok (l2, n2) ∧
      ∀ i : Nat, i < items.length → (items.getD i default).box = some A →
        (l2.getD i default).box = some A := by
  refine ⟨_, _, _, _, rfl, rfl, ?_⟩
  intro i hi hbox
  rw [List.map_map, getD_map_lt _ items i hi]
  generalize items.getD i default = x at hbox ⊢
  simp [Function.comp, hbox]

/-- Witness for C7 at a concrete collection. -/
theorem move_box_roundtrip_witness :
    ∃ l1 n1 l2 n2,
      move_box (BoxVal.int 1) (BoxVal.int 2) [{ box := some 1 }] = Except.ok (l1, n1) ∧
      move_box (BoxVal.int 2) (BoxVal.int 1) l1 = Except.ok (l2, n2) ∧
      ∀ i : Nat, i < ([{ box := some 1 }] : List Item).length →
        (([{ box := some 1 }] : List Item).getD i default).box = some 1 →
        (l2.getD i default).box = some 1 :=
  move_box_roundtrip 1 2 [{ box := some 1 }] (by decide)

/-- C4: when the candidate item, after normalization and optional
enrichment, has no truthy imdb_id, no truthy barcode and no non-blank title,
`add_item` returns with the collection unchanged and without persisting or
notifying. -/
theorem add_reject_noop (d : AddInput) (meta : Option Meta) (items : List Item)
    (bv : Option Int)
    (hp : parse_box d.box = Except.ok bv)
    (hu : usable (candidate d bv meta) = false) :
    add_item d meta items = Except.ok (items, false) := by
  simp [add_item, hp, hu]

/-- Witness for C4: an input with no identifying field is silently dropped. -/
theorem add_reject_noop_witness :
    add_item {} Option.none [{ title := some "kept" }] =
      Except.ok ([{ title := some "kept" }], false) :=
  add_reject_noop {} Option.none [{ title := some "kept" }] Option.none
    (by decide) (by decide)

/-- C6: if the selector resolves but the `box` value in the updates payload
fails the box-parsing rule, `update_item` raises that validation error and
the collection is left unchanged, with no partial merge and no persistence. -/
theorem update_box_error_atomic (sel : Selector) (u : Updates) (meta : Option Meta)
    (items : List Item) (idx : Nat) (raw : BoxVal) (msg : String)
    (hidx : resolveUpdate sel items = some idx)
    (hbox : u.box = some raw)
    (hparse : parse_box raw = Except.error msg) :
    update_item sel u meta items = Except.error msg ∧
    applyStep (Step.update sel u meta) items = items := by
  have h : update_item sel u meta items = Except.error msg := by
    simp only [update_item, hidx, hbox, hparse]
  exact ⟨h, by rw [applyStep, h]⟩

/-- Witness for C6: a textual box "abc" aborts an update that also carries a
title change, leaving the item untouched. -/
theorem update_box_error_atomic_witness :
    update_item { title := some "d" }
        { title := some (some "new"), box := some (BoxVal.str "abc") } Option.none
        [{ title := some "d" }] = Except.error "Box must be an integer" ∧
    applyStep (Step.update { title := some "d" }
        { title := some (some "new"), box := some (BoxVal.str "abc") } Option.none)
        [{ title := some "d" }] = [{ title := some "d" }] :=
  update_box_error_atomic _ _ _ _ 0 (BoxVal.str "abc") _ (by decide) rfl (by decide)

/-- C2 counterexample: with selector `{imdb_id: "x", barcode: "b"}` against a
collection whose only item has barcode "b" and no imdb_id, `update_item`
resolves index 0 (falling back to the barcode) while `remove_item` fails
with "not found" (it commits to the first populated field, imdb_id). -/
theorem update_remove_resolution_divergence :
    update_item { imdb_id := some "x", barcode := some "b" } {} Option.none
        [{ barcode := some "b" }] = Except.ok ([{ barcode := some "b" }], true) ∧
    remove_item { imdb_id := some "x", barcode := some "b" }
        [{ barcode := some "b" }] = Except.error "Item not found" :=
  ⟨by decide, by decide⟩

/-- C2 amended: `remove_item` commits to the first populated selector field,
so whenever it resolves an index, `update_item` resolves the same index; but
when the first populated field matches nothing, `remove_item` fails while
`update_item` may still resolve through a later populated field. -/
theorem remove_resolution_refines_update (sel : Selector) (items : List Item) (i : Nat)
    (h : remove_resolve sel items = Except.ok i) :
    resolveUpdate sel items = some i := by
  rw [remove_resolve] at h
  rw [resolveUpdate]
  by_cases h1 : truthy sel.imdb_id
  · rw [if_pos h1] at h
    cases hf : find_index (fun it => it.imdb_id) (sel.imdb_id.getD "") items with
    | none => rw [hf] at h; simp at h
    | some j =>
        rw [hf] at h
        cases h
        simp [h1, hf]
  · rw [if_neg h1] at h
    by_cases h2 : truthy sel.barcode
    · rw [if_pos h2] at h
      cases hf : find_index (fun it => it.barcode) (sel.barcode.getD "") items with
      | none => rw [hf] at h; simp at h
      | some j =>
          rw [hf] at h
          cases h
          simp [h1, h2, hf]
    · rw [if_neg h2] at h
      by_cases h3 : truthy sel.title
      · rw [if_pos h3] at h
        cases hf : find_index (fun it => it.title) (sel.title.getD "") items with
        | none => rw [hf] at h; simp at h
        | some j =>
            rw [hf] at h
            cases h
            simp [h1, h2, h3, hf]
      · rw [if_neg h3] at h
        simp at h

/-- Witness for the amended C2: a barcode-only selector resolves to the same
index in both operations. -/
theorem remove_resolution_refines_update_witness :
    resolveUpdate { barcode := some "b" } [{ barcode := some "b" }] = some 0 :=
  remove_resolution_refines_update { barcode := some "b" } [{ barcode := some "b" }] 0
    (by decide)

/-- C5: when `add_item` matches an existing item, the merge overwrites the
stored box exactly when the candidate's parsed box is non-null, keeps the
stored box when the candidate's box is null, and merges every non-box key of
the candidate dict unconditionally. -/
theorem add_merge_box_preserve (d : AddInput) (meta : Option Meta) (items : List Item)
    (bv : Option Int) (idx : Nat)
    (hp : parse_box d.box = Except.ok bv)
    (hu : usable (candidate d bv meta) = true)
    (hm : addMatchIdx (candidate d bv meta) items = some idx) :
    AddMergeSpec d meta items bv idx := by
  refine ⟨mergeAdd (items.getD idx default) (candidate d bv meta) meta.isSome,
    by simp only [add_item, hp, if_pos hu, hm], ?_, ?_, ?_, ?_, ?_, ?_, ?_, ?_, ?_⟩
  · intro hb
    obtain ⟨v, hv⟩ := Option.isSome_iff_exists.mp hb
    rw [hv]
    cases meta <;> simp [mergeAdd, hv]
  · intro hb
    cases meta <;> simp [mergeAdd, hb]
  · cases meta <;> rfl
  · cases meta <;> rfl
  · cases meta <;> rfl
  · cases meta <;> rfl
  · cases meta <;> rfl
  · intro hsome
    cases meta with
    | none => simp at hsome
    | some m => exact ⟨rfl, rfl, rfl, rfl, rfl, rfl, rfl, rfl, rfl, rfl, rfl, rfl⟩
  · intro hnone
    cases meta with
    | none => exact ⟨rfl, rfl, rfl, rfl, rfl, rfl, rfl, rfl, rfl, rfl, rfl, rfl⟩
    | some m => simp at hnone

/-- Witness for C5: a null-box re-add of an item that has box 1 keeps box 1. -/
theorem add_merge_box_preserve_witness :
    AddMergeSpec { imdb_id := some "x" } Option.none
      [{ imdb_id := some "x", box := some 1 }] Option.none 0 :=
  add_merge_box_preserve { imdb_id := some "x" } Option.none
    [{ imdb_id := some "x", box := some 1 }] Option.none 0
    (by decide) (by decide) (by decide)

/-- C3: with no metadata key configured, a second identical `add_item` whose
input carries a non-blank imdb_id merges in place — the collection size
after the second call equals the size after the first. -/
theorem add_idempotent_size (d : AddInput) (items s1 : List Item) (b1 : Bool)
    (himdb : truthy d.imdb_id = true)
    (h1 : add_item d Option.none items = Except.ok (s1, b1)) :
    ∃ idx merged,
      add_item d Option.none s1 = Except.ok (s1.set idx merged, true) ∧
      (s1.set idx merged).length = s1.length := by
  cases hp : parse_box d.box with
  | error e => rw [add_item, hp] at h1; simp at h1
  | ok bv =>
    have ht : truthy (candidate d bv Option.none).imdb_id = true := himdb
    have hu : usable (candidate d bv Option.none) = true := by
      simp [usable, ht]
    have hv : (candidate d bv Option.none).imdb_id =
        some ((candidate d bv Option.none).imdb_id.getD "") := imdb_eq_some_strip ht
    simp only [add_item, hp, if_pos hu] at h1
    have hsome : ∃ j, find_index (fun it => it.imdb_id)
        ((candidate d bv Option.none).imdb_id.getD "") s1 = some j := by
      cases hm : addMatchIdx (candidate d bv Option.none) items with
      | some i =>
          simp only [hm] at h1
          cases h1
          have hlt := addMatchIdx_some_lt hm
          refine find_index_isSome_of_mem
            (mem_set_self items i _ hlt) ?_ ?_
          · rw [mergeAdd_imdb]; exact ht
          · rw [mergeAdd_imdb]; exact hv
      | none =>
          simp only [hm] at h1
          cases h1
          refine find_index_isSome_of_mem
            (List.mem_append_right items (List.mem_singleton.mpr rfl)) ht hv
    obtain ⟨j, hj⟩ := hsome
    refine ⟨j, mergeAdd (s1.getD j default) (candidate d bv Option.none)
      (Option.none : Option Meta).isSome, ?_, by simp⟩
    have hmatch : addMatchIdx (candidate d bv Option.none) s1 = some j := by
      rw [addMatchIdx, if_pos ht, hj]
    simp only [add_item, hp, if_pos hu, hmatch]

/-- Witness for C3: adding the same imdb_id twice ends with one item. -/
theorem add_idempotent_size_witness :
    ∃ idx merged,
      add_item { imdb_id := some "tt1" } Option.none
        [{ imdb_id := some "tt1", added_by := Option.none }] =
        Except.ok (([{ imdb_id := some "tt1", added_by := Option.none }] : List Item).set
          idx merged, true) ∧
      (([{ imdb_id := some "tt1", added_by := Option.none }] : List Item).set
        idx merged).length =
        ([{ imdb_id := some "tt1", added_by := Option.none }] : List Item).length :=
  add_idempotent_size { imdb_id := some "tt1" } [] _ true (by decide) (by decide)

/-- C1 counterexample: the state holding two distinct items that both carry
the non-blank imdb_id "tt1" is reachable from the empty collection by two
adds followed by one `update_item`, and it violates the uniqueness
invariant — `update_item` performs no duplicate check on imdb_id. -/
theorem uniqueImdb_reachable_cex :
    (∃ steps : List Step, runSteps steps [] =
      [{ title := some "t1", imdb_id := some "tt1" },
       { title := some "t2", imdb_id := some "tt1" }]) ∧
    ¬ UniqueImdb
      [{ title := some "t1", imdb_id := some "tt1" },
       { title := some "t2", imdb_id := some "tt1" }] := by
  constructor
  · exact ⟨[Step.add { title := some "t1", imdb_id := some "tt1" } Option.none,
            Step.add { title := some "t2", imdb_id := some "tt2" } Option.none,
            Step.update { title := some "t2" } { imdb_id := some (some "tt1") }
              Option.none],
          by decide⟩
  · decide

/-- C1 amended: in every state reachable from the empty collection by
`add_item` (with any enrichment result), `remove_item`, `remove_index`,
`purge_nulls`, `move_box`, and `refresh_metadata` calls made with no API key
configured, no two distinct items carry the same non-blank imdb_id;
`update_item` is excluded because it can create such duplicates. -/
theorem uniqueImdb_reachable_safe (steps : List Step)
    (hs : ∀ st ∈ steps, SafeStep st) : UniqueImdb (runSteps steps []) :=
  runSteps_preserves_unique steps [] hs (by simp [UniqueImdb])

/-- Witness for the amended C1: a concrete safe trace mixing adds, a purge,
a move and a keyless refresh keeps imdb_ids unique. -/
theorem uniqueImdb_reachable_safe_witness :
    UniqueImdb (runSteps
      [Step.add { title := some "t1", imdb_id := some "tt1" } Option.none,
       Step.add { title := some "t2", imdb_id := some "tt2", box := BoxVal.int 1 } Option.none,
       Step.purge,
       Step.move (BoxVal.int 1) (BoxVal.int 2),
       Step.refresh Option.none false (fun _ => Option.none)] []) :=
  uniqueImdb_reachable_safe _ (by
    intro st hst
    simp only [List.mem_cons, List.mem_singleton] at hst
    rcases hst with rfl | rfl | rfl | rfl | rfl | h
    · trivial
    · trivial
    · trivial
    · trivial
    · rfl
    · simp at h)

end DvdLib
